import Mathlib

/-!
Verification of the search query compiler of the `keyvault` repository
(`src/lucene_parser.rs`): a Lucene-style boolean query language compiled to a
SQL boolean expression.

Strings are embedded as `List Char`.  The pest parse tree (`Pair`) is embedded
as a rose tree over a mutually inductive list type so that all functions are
structurally recursive and kernel-evaluable.  The renderer
(`parse_expression`, `render_key_value`, `escape_sql_like`, `query_to_sql`) is
translated directly from `src/lucene_parser.rs`.  The grammar file
`grammar.pest` is not part of the sources; the parser producing `Pair` trees
is modelled from the specification (§4.1), see `parsePrimaryE` and friends.
-/

namespace KeyVault

/-- The grammar rules appearing in the parse tree (the `Rule` enum that pest
derives from `grammar.pest`; the constructor set is the one used by
`lucene_parser.rs`). -/
inductive Rule where
  | expression | or_expr | and_expr | not_expr | NOT_OP | primary | grouped
  | key_value | key | value | quoted_string | ident | phrase | term
  | and_op | or_op | WHITESPACE | EOI
  deriving DecidableEq, Repr

mutual
/-- A pest `Pair`: a matched rule, the matched source text (`as_str`), and the
inner pairs (`into_inner`). -/
inductive Pair where
  | mk (rule : Rule) (text : List Char) (children : Pairs)
  deriving Repr
/-- List of pairs (mutually inductive so that recursion over trees is
structural). -/
inductive Pairs where
  | nil
  | cons (p : Pair) (ps : Pairs)
  deriving Repr
end

def Pair.rule : Pair → Rule
  | .mk r _ _ => r

def Pair.text : Pair → List Char
  | .mk _ t _ => t

def Pair.children : Pair → Pairs
  | .mk _ _ cs => cs

/-- Convert a plain list of pairs into the mutual list type. -/
def toPairs : List Pair → Pairs
  | [] => .nil
  | p :: ps => .cons p (toPairs ps)

/-- Shorthand: the characters of a string literal. -/
def strL (s : String) : List Char := s.data

/-- Whitespace, as used both by `str::trim` and by the grammar's `WHITESPACE`
rule (ASCII subset of Rust's `char::is_whitespace`). -/
def wsChar (c : Char) : Bool :=
  c == ' ' || c == '\t' || c == '\n' || c == '\r'

/-- `PestError` carries the position information of a syntax error (modelled:
the pest error type reports the offending input position). -/
structure PestErr where
  pos : Nat
  deriving DecidableEq, Repr

/-- `QueryParseError` from `lucene_parser.rs`: user syntax errors versus
internal invariant violations. -/
inductive QueryParseError where
  | SyntaxError (e : PestErr)
  | InternalError (msg : List Char)
  deriving DecidableEq, Repr

/-- `is_ws` from `lucene_parser.rs`. -/
def is_ws (p : Pair) : Bool := p.rule == .WHITESPACE

/-- `is_sep` from `lucene_parser.rs`: whitespace or `and_op`/`or_op`. -/
def is_sep (p : Pair) : Bool :=
  is_ws p || p.rule == .and_op || p.rule == .or_op

/-- Rust `str::replace` with a single-character pattern. -/
def replace1 (c : Char) (rep : List Char) : List Char → List Char
  | [] => []
  | x :: xs => (if x = c then rep else [x]) ++ replace1 c rep xs

/-- Rust `str::replace` with a two-character pattern (left-to-right,
non-overlapping). -/
def replace2 (a b : Char) (rep : List Char) : List Char → List Char
  | [] => []
  | [x] => [x]
  | x :: y :: xs =>
    if x = a ∧ y = b then rep ++ replace2 a b rep xs
    else x :: replace2 a b rep (y :: xs)

/-- `escape_sql_like` from `lucene_parser.rs`:
`s.replace('\\',"\\\\").replace('%',"\\%").replace('_',"\\_")`. -/
def escape_sql_like (s : List Char) : List Char :=
  replace1 '_' ['\\', '_'] (replace1 '%' ['\\', '%'] (replace1 '\\' ['\\', '\\'] s))

/-- The quoted-string unescaping used for keys, values and phrases:
`inner.replace("\\\\", "\\").replace("\\\"", "\"")`. -/
def unescape_quoted (s : List Char) : List Char :=
  replace2 '\\' '"' ['"'] (replace2 '\\' '\\' ['\\'] s)

/-- The JSON escaping inlined in `render_key_value`:
`raw.replace('\\', "\\\\").replace('"', "\\\"")`. -/
def json_escape (s : List Char) : List Char :=
  replace1 '"' ['\\', '"'] (replace1 '\\' ['\\', '\\'] s)

/-- First non-whitespace pair of a list together with the remaining pairs
after it (`next_non_ws` on an iterator). -/
def Pairs.findNonWs : Pairs → Option (Pair × Pairs)
  | .nil => none
  | .cons p ps => if is_ws p then ps.findNonWs else some (p, ps)

/-- Strip the outer quotes of a `quoted_string` match (`&s[1..s.len()-1]`). -/
def stripQuotes (s : List Char) : List Char := (s.drop 1).dropLast

/-- Extract the raw key or value string from the inner token of a `key` or
`value` pair, per `render_key_value`: a `quoted_string` is unquoted and
unescaped, an `ident` is taken verbatim, anything else is an internal error. -/
def rawOfToken (inner : Pair) : Except QueryParseError (List Char) :=
  match inner.rule with
  | .quoted_string => .ok (unescape_quoted (stripQuotes inner.text))
  | .ident => .ok inner.text
  | _ => .error (.InternalError (strL "Unexpected rule inside key or value"))

/-- The SQL text built by `render_key_value` from the raw key and value
strings: schema fields get a single clause, generic fields the combo clause
(`let like_key ... json_val` and the final `match key_raw.as_str()` of the
source). -/
def kvSQL (key_raw val_raw : List Char) : List Char :=
  let like_key := escape_sql_like key_raw
  let like_val := escape_sql_like val_raw
  let json_key := json_escape key_raw
  let json_val := json_escape val_raw
  if key_raw = strL "secret_key" then
    strL "secret_key ILIKE '%" ++ like_val ++ strL "%'"
  else if key_raw = strL "secret_value" then
    strL "secret_value::text ILIKE '%" ++ like_val ++ strL "%'"
  else
    strL "(secret_key ILIKE '%" ++ like_key ++
    strL "%' AND secret_value::text ILIKE '%" ++ like_val ++
    strL "%' OR secret_value @> '\x7b\"" ++ json_key ++
    strL "\": \"" ++ json_val ++ strL "\"\x7d')"

/-- `render_key_value` from `lucene_parser.rs`: render a `key_value` pair,
handling schema fields (`secret_key`, `secret_value`) versus generic fields. -/
def render_key_value (p : Pair) : Except QueryParseError (List Char) :=
  match p.children.findNonWs with
  | none => .error (.InternalError (strL "Missing key in key_value rule"))
  | some (keyRulePair, rest) =>
    match rest.findNonWs with
    | none => .error (.InternalError (strL "Missing value in key_value rule"))
    | some (valueRulePair, _) =>
      match keyRulePair.children with
      | .nil => .error (.InternalError (strL "Missing inner pair for key rule"))
      | .cons keyInner _ =>
        match rawOfToken keyInner with
        | .error e => .error e
        | .ok key_raw =>
          match valueRulePair.children with
          | .nil => .error (.InternalError (strL "Missing inner pair for value rule"))
          | .cons valueInner _ =>
            match rawOfToken valueInner with
            | .error e => .error e
            | .ok val_raw => .ok (kvSQL key_raw val_raw)

/-- Rendering of a `term` or `phrase` body text. -/
def termSQL (t : List Char) : List Char :=
  strL "(secret_key ILIKE '%" ++ escape_sql_like t ++
  strL "%' OR secret_value::text ILIKE '%" ++ escape_sql_like t ++ strL "%')"

/-- The phrase-unquoting of the `Rule::phrase` arm of `parse_expression`. -/
def phraseText (s : List Char) : List Char :=
  if s.head? = some '"' ∧ s.getLast? = some '"' ∧ 2 ≤ s.length then
    unescape_quoted (stripQuotes s)
  else s

mutual
/-- `parse_expression` from `lucene_parser.rs`: recursively walk the parse
tree and generate SQL. -/
def parse_expression : Pair → Except QueryParseError (List Char)
  | .mk r t cs =>
    match r with
    | .expression => peExprBody cs
    | .or_expr => peListBody (strL " OR ") cs
    | .and_expr => peListBody (strL " AND ") cs
    | .not_expr => peNot false cs
    | .primary =>
      match cs with
      | .nil => .error (.InternalError (strL "unwrap of missing primary child"))
      | .cons p _ => parse_expression p
    | .grouped => peGroupBody cs
    | .key_value => render_key_value (.mk r t cs)
    | .phrase => .ok (termSQL (phraseText t))
    | .term => .ok (termSQL t)
    | .EOI => .ok []
    | _ => .error (.InternalError (strL "Unexpected rule encountered"))

/-- The `Rule::expression` arm: take the first non-whitespace inner pair
(`Empty expression` otherwise) and recurse. -/
def peExprBody : Pairs → Except QueryParseError (List Char)
  | .nil => .error (.InternalError (strL "Empty expression"))
  | .cons p ps => if is_ws p then peExprBody ps else parse_expression p

/-- The `Rule::grouped` arm: first non-whitespace inner pair, rendered and
wrapped in parentheses (the missing-child case models the `.unwrap()` panic). -/
def peGroupBody : Pairs → Except QueryParseError (List Char)
  | .nil => .error (.InternalError (strL "unwrap of missing grouped child"))
  | .cons p ps =>
    if is_ws p then peGroupBody ps
    else
      match parse_expression p with
      | .error e => .error e
      | .ok s => .ok ('(' :: s ++ [')'])

/-- The `Rule::or_expr`/`Rule::and_expr` arms: first non-whitespace operand
(the `.unwrap()` panic when absent), then the remaining operands with
separators skipped, joined by `sep`. -/
def peListBody (sep : List Char) : Pairs → Except QueryParseError (List Char)
  | .nil => .error (.InternalError (strL "unwrap of missing first operand"))
  | .cons p ps =>
    if is_ws p then peListBody sep ps
    else
      match parse_expression p with
      | .error e => .error e
      | .ok first =>
        match peParts sep ps with
        | .error e => .error e
        | .ok rest => .ok (first ++ rest)

/-- The operand-collecting loop of the `or_expr`/`and_expr` arms: skip
separators, render every other pair, prepend `sep` to each rendering. -/
def peParts (sep : List Char) : Pairs → Except QueryParseError (List Char)
  | .nil => .ok []
  | .cons p ps =>
    if is_sep p then peParts sep ps
    else
      match parse_expression p with
      | .error e => .error e
      | .ok s =>
        match peParts sep ps with
        | .error e => .error e
        | .ok rest => .ok (sep ++ s ++ rest)

/-- The `Rule::not_expr` arm: `NOT_OP` children set the flag, the first other
non-whitespace child is the target (`Missing NOT target` otherwise). -/
def peNot (has_not : Bool) : Pairs → Except QueryParseError (List Char)
  | .nil => .error (.InternalError (strL "Missing NOT target"))
  | .cons p ps =>
    if is_ws p then peNot has_not ps
    else if p.rule == .NOT_OP then peNot true ps
    else
      match parse_expression p with
      | .error e => .error e
      | .ok s => .ok (if has_not then strL "NOT " ++ s else s)
end

/-! ### The grammar, modelled from the specification

`grammar.pest` is not among the repository sources (only `lucene_parser.rs`
refers to it), so the parser below is a model of §4.1 of the specification:
whitespace separates tokens and implies AND; reserved tokens `AND`, `OR`,
`NOT` and a leading `-`; `(`/`)` group; `"`-delimited strings with `\\` and
`\"` escapes (unterminated quote is an error); a bare identifier is a maximal
run excluding whitespace, `:`, parentheses and the quote character;
`key_value := (quoted_string | ident) ':' (quoted_string | ident)` with an
unquoted value capturing a single token; precedence NOT > AND (explicit or
implicit) > OR; parentheses force a group.  Parse errors report the length of
the remaining input at the failure point; `query_to_sql` converts that into a
position.  Parsing functions consume fuel on every call; `parseQuery` supplies
more than enough. -/

/-- Modelled from the spec: characters allowed in a bare identifier (anything
but whitespace, `:`, parentheses and the quote character). -/
def identChar (c : Char) : Bool :=
  !(wsChar c) && c != ':' && c != '(' && c != ')' && c != '"'

/-- Remove the prefix `k` from `s`, if present. -/
def stripPfx : List Char → List Char → Option (List Char)
  | [], s => some s
  | _, [] => none
  | k :: ks, c :: cs => if c = k then stripPfx ks cs else none

/-- Modelled from the spec: a reserved operator token (`AND`, `OR`, `NOT`)
occurs at the head of `s`, with a token boundary after it. -/
def atKw (kw : List Char) (s : List Char) : Bool :=
  match stripPfx kw s with
  | some [] => true
  | some (c :: _) => !identChar c
  | none => false

/-- Skip whitespace. -/
def skipWs (s : List Char) : List Char := s.dropWhile wsChar

/-- Modelled from the spec: scan the body of a quoted string after the opening
quote; `\\` and `\"` stay escaped in the matched text (un-escaping happens in
the renderer).  Fails on an unterminated quote. -/
def scanQuoted (acc : List Char) : List Char → Except Nat (List Char × List Char)
  | [] => .error 0
  | '"' :: rest => .ok (acc, rest)
  | '\\' :: c :: rest => scanQuoted (acc ++ ['\\', c]) rest
  | '\\' :: [] => .error 1
  | c :: rest => scanQuoted (acc ++ [c]) rest

/-- Modelled from the spec: one `quoted_string` or `ident` token, as a leaf
`Pair` (the matched text of a `quoted_string` includes the quotes). -/
def parseTok (s : List Char) : Except Nat (Pair × List Char) :=
  if s.head? = some '"' then
    match scanQuoted [] (s.drop 1) with
    | .error n => .error n
    | .ok (inner, rest') => .ok (.mk .quoted_string ('"' :: inner ++ ['"']) .nil, rest')
  else if identChar (s.headD ' ') then
    .ok (.mk .ident (s.takeWhile identChar) .nil, s.dropWhile identChar)
  else .error s.length

/-- A `NOT_OP` leaf pair. -/
def notOpPair : Pair := .mk .NOT_OP (strL "-") .nil

/-- An `and_op` leaf pair. -/
def andOpPair : Pair := .mk .and_op (strL "AND") .nil

/-- An `or_op` leaf pair. -/
def orOpPair : Pair := .mk .or_op (strL "OR") .nil

/-- Wrap an atom pair in a `primary` pair. -/
def mkPrimary (p : Pair) : Pair := .mk .primary [] (.cons p .nil)

/-- Build a `key_value` pair from the key and value token pairs. -/
def mkKeyValue (ktok vtok : Pair) : Pair :=
  .mk .key_value []
    (.cons (.mk .key [] (.cons ktok .nil))
      (.cons (.mk .value [] (.cons vtok .nil)) .nil))

mutual
/-- Modelled from the spec: `primary := grouped | key_value | phrase | term`;
a token followed directly by `:` starts a `key_value`; a bare `AND`/`OR`/`NOT`
is not a term. -/
def parsePrimaryE : Nat → List Char → Except Nat (Pair × List Char)
  | 0, s => .error s.length
  | fuel + 1, s =>
    if s.head? = some '(' then
      match parseOrE fuel (skipWs (s.drop 1)) with
      | .error n => .error n
      | .ok (o, s2) =>
        if (skipWs s2).head? = some ')' then
          .ok (mkPrimary (.mk .grouped [] (.cons o .nil)), (skipWs s2).drop 1)
        else .error (skipWs s2).length
    else
      match parseTok s with
      | .error n => .error n
      | .ok (tok, s1) =>
        if s1.head? = some ':' then
          match parseTok (s1.drop 1) with
          | .error n => .error n
          | .ok (vtok, s3) => .ok (mkPrimary (mkKeyValue tok vtok), s3)
        else if tok.rule == Rule.quoted_string then
          .ok (mkPrimary (.mk .phrase tok.text .nil), s1)
        else if tok.text = strL "AND" ∨ tok.text = strL "OR" ∨ tok.text = strL "NOT" then
          .error s.length
        else .ok (mkPrimary (.mk .term tok.text .nil), s1)

/-- Modelled from the spec: `not_expr := (NOT | '-')? primary`; `-` binds to
the immediately following atom. -/
def parseNotE : Nat → List Char → Except Nat (Pair × List Char)
  | 0, s => .error s.length
  | fuel + 1, s =>
    if atKw (strL "NOT") s then
      match parsePrimaryE fuel (skipWs (s.drop 3)) with
      | .error n => .error n
      | .ok (p, s') => .ok (.mk .not_expr [] (.cons notOpPair (.cons p .nil)), s')
    else if s.head? = some '-' then
      match parsePrimaryE fuel (s.drop 1) with
      | .error n => .error n
      | .ok (p, s') => .ok (.mk .not_expr [] (.cons notOpPair (.cons p .nil)), s')
    else
      match parsePrimaryE fuel s with
      | .error n => .error n
      | .ok (p, s') => .ok (.mk .not_expr [] (.cons p .nil), s')

/-- Modelled from the spec: `and_expr := not_expr ((AND not_expr) | not_expr)*`
— explicit `AND` or implicit AND by adjacency, stopping before `OR`, `)` or
the end of input. -/
def parseAndE : Nat → List Char → Except Nat (Pair × List Char)
  | 0, s => .error s.length
  | fuel + 1, s =>
    match parseNotE fuel s with
    | .error n => .error n
    | .ok (n1, s1) => parseAndLoop fuel [n1] s1

/-- The operand loop of `and_expr`; `acc` holds the operands (and explicit
`and_op` pairs) collected so far, in reverse order. -/
def parseAndLoop : Nat → List Pair → List Char → Except Nat (Pair × List Char)
  | 0, _, s => .error s.length
  | fuel + 1, acc, s =>
    if atKw (strL "AND") (skipWs s) then
      match parseNotE fuel (skipWs ((skipWs s).drop 3)) with
      | .error n => .error n
      | .ok (n2, s2) => parseAndLoop fuel (n2 :: andOpPair :: acc) s2
    else if atKw (strL "OR") (skipWs s) then
      .ok (.mk .and_expr [] (toPairs acc.reverse), s)
    else if skipWs s ≠ [] ∧ (identChar ((skipWs s).headD ' ') ||
             (skipWs s).headD ' ' == '(' || (skipWs s).headD ' ' == '"' ||
             (skipWs s).headD ' ' == '-') then
      match parseNotE fuel (skipWs s) with
      | .error n => .error n
      | .ok (n2, s2) => parseAndLoop fuel (n2 :: acc) s2
    else
      .ok (.mk .and_expr [] (toPairs acc.reverse), s)

/-- Modelled from the spec: `or_expr := and_expr (OR and_expr)*`. -/
def parseOrE : Nat → List Char → Except Nat (Pair × List Char)
  | 0, s => .error s.length
  | fuel + 1, s =>
    match parseAndE fuel s with
    | .error n => .error n
    | .ok (a1, s1) => parseOrLoop fuel [a1] s1

/-- The operand loop of `or_expr`; `acc` holds operands and `or_op` pairs in
reverse order. -/
def parseOrLoop : Nat → List Pair → List Char → Except Nat (Pair × List Char)
  | 0, _, s => .error s.length
  | fuel + 1, acc, s =>
    if atKw (strL "OR") (skipWs s) then
      match parseAndE fuel (skipWs ((skipWs s).drop 2)) with
      | .error n => .error n
      | .ok (a2, s2) => parseOrLoop fuel (a2 :: orOpPair :: acc) s2
    else
      .ok (.mk .or_expr [] (toPairs acc.reverse), s)
end

/-- Modelled from the spec: parse a whole (already trimmed) input as
`expression := or_expr EOI`, requiring the input to be fully consumed. -/
def parseQuery (s : List Char) : Except Nat Pair :=
  match parseOrE (8 * s.length + 16) s with
  | .error n => .error n
  | .ok (o, rest) =>
    if rest = [] then
      .ok (.mk .expression [] (.cons o (.cons (.mk .EOI [] .nil) .nil)))
    else .error rest.length

/-- Drop leading whitespace. -/
def ltrimD (s : List Char) : List Char := s.dropWhile wsChar

/-- Drop trailing whitespace. -/
def rtrimD (s : List Char) : List Char := (s.reverse.dropWhile wsChar).reverse

/-- Rust `str::trim`: drop leading and trailing whitespace. -/
def trimL (s : List Char) : List Char := rtrimD (ltrimD s)

/-- The parse-and-render path of `query_to_sql` (taken whenever the trimmed
input is nonempty). -/
def parsedPath (q : List Char) : Except QueryParseError (List Char) :=
  match parseQuery q with
  | .ok p => parse_expression p
  | .error n => .error (.SyntaxError ⟨q.length - n⟩)

/-- `query_to_sql` from `lucene_parser.rs`: trim, short-circuit empty input to
`TRUE`, otherwise parse and render. -/
def query_to_sql (raw : List Char) : Except QueryParseError (List Char) :=
  let q := trimL raw
  if q = [] then .ok (strL "TRUE")
  else parsedPath q

/-! ### Definitions used to state the claims -/

/-- The specification's `likeEscape`: `\` → `\\`, `%` → `\%`, `_` → `\_`,
every other character unchanged. -/
def likeEscSpec (s : List Char) : List Char :=
  s.flatMap fun c =>
    if c = '\\' then ['\\', '\\']
    else if c = '%' then ['\\', '%']
    else if c = '_' then ['\\', '_']
    else [c]

/-- The specification's `jsonEscape`: `\` → `\\`, `"` → `\"`, every other
character unchanged. -/
def jsonEscSpec (s : List Char) : List Char :=
  s.flatMap fun c =>
    if c = '\\' then ['\\', '\\']
    else if c = '"' then ['\\', '"']
    else [c]

/-- The three-part combo clause of the specification for a generic
`key:value` pair. -/
def comboSQL (k v : List Char) : List Char :=
  strL "(secret_key ILIKE '%" ++ likeEscSpec k ++
  strL "%' AND secret_value::text ILIKE '%" ++ likeEscSpec v ++
  strL "%' OR secret_value @> '\x7b\"" ++ jsonEscSpec k ++
  strL "\": \"" ++ jsonEscSpec v ++ strL "\"\x7d')"

/-- A `key_value` pair whose key and value are bare identifier tokens. -/
def identKV (k v : List Char) : Pair :=
  mkKeyValue (.mk .ident k .nil) (.mk .ident v .nil)

/-- A `not_expr` pair holding a `NOT_OP` and the operand `p`. -/
def notNode (p : Pair) : Pair :=
  .mk .not_expr [] (.cons (.mk .NOT_OP [] .nil) (.cons p .nil))

/-- `pat` is a prefix of `s`. -/
def isPfxOf : List Char → List Char → Bool
  | [], _ => true
  | _ :: _, [] => false
  | a :: as, b :: bs => a == b && isPfxOf as bs

/-- `pat` occurs as a contiguous substring of `s`. -/
def hasSub (pat : List Char) : List Char → Bool
  | [] => isPfxOf pat []
  | c :: rest => isPfxOf pat (c :: rest) || hasSub pat rest

/-- Parenthesis balance of a SQL string, ignoring parentheses inside
single-quoted literals: scan with the current quote state and open-paren
depth; `)` with depth zero outside a literal, or a nonzero final depth,
is unbalanced. -/
def balOut : List Char → Bool → Nat → Bool
  | [], _, d => d == 0
  | '\'' :: r, inQ, d => balOut r (!inQ) d
  | '(' :: r, inQ, d => if inQ then balOut r inQ d else balOut r inQ (d + 1)
  | ')' :: r, inQ, d =>
    if inQ then balOut r inQ d
    else if d == 0 then false else balOut r inQ (d - 1)
  | _ :: r, inQ, d => balOut r inQ d

/-- The result is a syntax error (and hence not a rendered SQL string and not
an internal error). -/
def isSynErr : Except QueryParseError (List Char) → Bool
  | .error (.SyntaxError _) => true
  | _ => false

/-- The renderer succeeds on the tree `p` (no internal error, no panic). -/
def rOk (p : Pair) : Prop := ∃ out, parse_expression p = .ok out

/-- The parse tree of the input `a`, used to instantiate C4. -/
def treeOfA : Pair :=
  .mk .expression []
    (.cons
      (.mk .or_expr []
        (.cons
          (.mk .and_expr []
            (.cons
              (.mk .not_expr []
                (.cons
                  (.mk .primary []
                    (.cons (.mk .term ['a'] .nil) .nil))
                  .nil))
              .nil))
          .nil))
      (.cons (.mk .EOI [] .nil) .nil))

/-- Invariant of the operand accumulators of `parseAndLoop`/`parseOrLoop`
(which hold operands in reverse order): read forwards, the list starts with a
renderable non-whitespace operand followed by separators and renderable
operands. -/
def AccInv (acc : List Pair) : Prop :=
  match acc.reverse with
  | [] => False
  | q :: qs => is_ws q = false ∧ rOk q ∧ ∀ r ∈ qs, is_sep r = true ∨ rOk r

/-! ### Helper lemmas: the sequential `replace` chains equal the
specification's single-pass escape maps -/

theorem replace1_append (c : Char) (rep : List Char) (a b : List Char) :
    replace1 c rep (a ++ b) = replace1 c rep a ++ replace1 c rep b := by
  induction a with
  | nil => rfl
  | cons x xs ih => simp [replace1, ih]

theorem escape_sql_like_append (a b : List Char) :
    escape_sql_like (a ++ b) = escape_sql_like a ++ escape_sql_like b := by
  simp [escape_sql_like, replace1_append]

theorem json_escape_append (a b : List Char) :
    json_escape (a ++ b) = json_escape a ++ json_escape b := by
  simp [json_escape, replace1_append]

theorem escape_sql_like_single (c : Char) :
    escape_sql_like [c] = likeEscSpec [c] := by
  by_cases h1 : c = '\\'
  · subst h1; decide
  by_cases h2 : c = '%'
  · subst h2; decide
  by_cases h3 : c = '_'
  · subst h3; decide
  simp [escape_sql_like, replace1, likeEscSpec, h1, h2, h3]

theorem json_escape_single (c : Char) :
    json_escape [c] = jsonEscSpec [c] := by
  by_cases h1 : c = '\\'
  · subst h1; decide
  by_cases h2 : c = '"'
  · subst h2; decide
  simp [json_escape, replace1, jsonEscSpec, h1, h2]

theorem escape_sql_like_eq_spec (s : List Char) :
    escape_sql_like s = likeEscSpec s := by
  induction s with
  | nil => rfl
  | cons c s ih =>
    have h : c :: s = [c] ++ s := rfl
    rw [h, escape_sql_like_append, escape_sql_like_single, ih]
    simp [likeEscSpec]

theorem json_escape_eq_spec (s : List Char) :
    json_escape s = jsonEscSpec s := by
  induction s with
  | nil => rfl
  | cons c s ih =>
    have h : c :: s = [c] ++ s := rfl
    rw [h, json_escape_append, json_escape_single, ih]
    simp [jsonEscSpec]

/-- `render_key_value` on an identifier `key:value` pair reduces to `kvSQL`
on the raw key and value. -/
theorem render_key_value_identKV (k v : List Char) :
    render_key_value (identKV k v) = .ok (kvSQL k v) := rfl

/-- The branching shape of `kvSQL`: schema fields get the single clause, any
other key the combo clause. -/
theorem kvSQL_eq (k v : List Char) :
    kvSQL k v =
      if k = strL "secret_key" then
        strL "secret_key ILIKE '%" ++ escape_sql_like v ++ strL "%'"
      else if k = strL "secret_value" then
        strL "secret_value::text ILIKE '%" ++ escape_sql_like v ++ strL "%'"
      else
        strL "(secret_key ILIKE '%" ++ escape_sql_like k ++
        strL "%' AND secret_value::text ILIKE '%" ++ escape_sql_like v ++
        strL "%' OR secret_value @> '\x7b\"" ++ json_escape k ++
        strL "\": \"" ++ json_escape v ++ strL "\"\x7d')" := rfl

/-! ### Claim theorems -/

/-- C2: every `key:value` pair whose key is neither `secret_key` nor
`secret_value` renders as the parenthesized three-part combo clause (LIKE on
key AND LIKE on value OR JSON containment), with the specification's
`likeEscape`/`jsonEscape`, regardless of nesting; in particular
`something:wild` compiles to exactly the combo clause. -/
theorem C2_generic_key_value_combo (k v : List Char)
    (h1 : k ≠ strL "secret_key") (h2 : k ≠ strL "secret_value") :
    render_key_value (identKV k v) = .ok (comboSQL k v) ∧
    query_to_sql (strL "something:wild") =
      .ok (strL "(secret_key ILIKE '%something%' AND secret_value::text ILIKE '%wild%' OR secret_value @> '\x7b\"something\": \"wild\"\x7d')") := by
  refine ⟨?_, by rfl⟩
  rw [render_key_value_identKV, kvSQL_eq, if_neg h1, if_neg h2, comboSQL,
    escape_sql_like_eq_spec, escape_sql_like_eq_spec,
    json_escape_eq_spec, json_escape_eq_spec]

theorem C2_generic_key_value_combo_witness :
    render_key_value (identKV (strL "foo") (strL "bar")) =
      .ok (comboSQL (strL "foo") (strL "bar")) ∧
    query_to_sql (strL "something:wild") =
      .ok (strL "(secret_key ILIKE '%something%' AND secret_value::text ILIKE '%wild%' OR secret_value @> '\x7b\"something\": \"wild\"\x7d')") :=
  C2_generic_key_value_combo (strL "foo") (strL "bar") (by decide) (by decide)

/-- C3: a `key:value` pair with key exactly `secret_key` (resp.
`secret_value`) renders as the single unparenthesized ILIKE clause with the
value escaped by `likeEscape` (which replaces exactly `\`, `%`, `_` and
changes nothing else); in particular `secret_key:test_value` compiles to
`secret_key ILIKE '%test\_value%'`. -/
theorem C3_schema_field_rendering (v : List Char) :
    render_key_value (identKV (strL "secret_key") v) =
      .ok (strL "secret_key ILIKE '%" ++ likeEscSpec v ++ strL "%'") ∧
    render_key_value (identKV (strL "secret_value") v) =
      .ok (strL "secret_value::text ILIKE '%" ++ likeEscSpec v ++ strL "%'") ∧
    query_to_sql (strL "secret_key:test_value") =
      .ok (strL "secret_key ILIKE '%test\\_value%'") := by
  refine ⟨?_, ?_, by rfl⟩
  · rw [render_key_value_identKV, kvSQL_eq, if_pos rfl, escape_sql_like_eq_spec]
  · rw [render_key_value_identKV, kvSQL_eq, if_neg (by decide), if_pos rfl,
      escape_sql_like_eq_spec]

/-- C5: the six grammar-invalid inputs `a:`, `:b`, `(`, `a AND`,
`"unterminated` and `a:b OR AND c:d` all make `query_to_sql` return a
syntax error (an `Err`, carrying a position — so no SQL string, partial or
otherwise, is produced). -/
theorem C5_syntax_error_inputs :
    isSynErr (query_to_sql (strL "a:")) = true ∧
    isSynErr (query_to_sql (strL ":b")) = true ∧
    isSynErr (query_to_sql (strL "(")) = true ∧
    isSynErr (query_to_sql (strL "a AND")) = true ∧
    isSynErr (query_to_sql (strL "\"unterminated")) = true ∧
    isSynErr (query_to_sql (strL "a:b OR AND c:d")) = true := by
  decide

/-- C9: an unquoted value captures only the single token after the colon:
`secret_value:some data` compiles as the pair `secret_value:some` implicitly
ANDed with the bare term `data`. -/
theorem C9_unquoted_value_single_token :
    query_to_sql (strL "secret_value:some data") =
      .ok (strL "secret_value::text ILIKE '%some%' AND (secret_key ILIKE '%data%' OR secret_value::text ILIKE '%data%')") := by
  rfl

/-- C6: an input whose trimmed form is empty yields exactly `Ok "TRUE"` by
the short-circuit; on every other input the result is the parse-and-render
path, so the short-circuit never produces `TRUE` for them. -/
theorem C6_empty_input_true (raw : List Char) :
    (trimL raw = [] → query_to_sql raw = .ok (strL "TRUE")) ∧
    (trimL raw ≠ [] → query_to_sql raw = parsedPath (trimL raw)) := by
  constructor <;> intro h <;> simp [query_to_sql, h]

theorem C6_empty_input_true_witness :
    query_to_sql (strL "   ") = .ok (strL "TRUE") ∧
    query_to_sql (strL "a") = parsedPath (trimL (strL "a")) :=
  ⟨(C6_empty_input_true (strL "   ")).1 (by decide),
   (C6_empty_input_true (strL "a")).2 (by decide)⟩

/-- C1 (code bug): the value `o'brien` of the pair `a:o'brien` is embedded
into the single-quoted LIKE pattern and JSON literal with its single quote
NOT doubled: the output contains `%o'brien%` and no doubled quote `''`
anywhere, contradicting the required `'` → `''` transform. -/
theorem C1_single_quote_not_doubled :
    query_to_sql (strL "a:o'brien") =
      .ok (strL "(secret_key ILIKE '%a%' AND secret_value::text ILIKE '%o'brien%' OR secret_value @> '\x7b\"a\": \"o'brien\"\x7d')") ∧
    hasSub (strL "o'brien")
      (strL "(secret_key ILIKE '%a%' AND secret_value::text ILIKE '%o'brien%' OR secret_value @> '\x7b\"a\": \"o'brien\"\x7d')") = true ∧
    hasSub (strL "''")
      (strL "(secret_key ILIKE '%a%' AND secret_value::text ILIKE '%o'brien%' OR secret_value @> '\x7b\"a\": \"o'brien\"\x7d')") = false := by
  exact ⟨rfl, by decide, by decide⟩

/-- C7 (code bug): for the input `a:"'("` the successful output has
unbalanced parentheses outside its single-quoted literals — the unescaped
single quote of the value terminates the SQL literal early and exposes the
`(` of the value as a structural parenthesis. -/
theorem C7_unbalanced_output :
    query_to_sql (strL "a:\"'(\"") =
      .ok (strL "(secret_key ILIKE '%a%' AND secret_value::text ILIKE '%'(%' OR secret_value @> '\x7b\"a\": \"'(\"\x7d')") ∧
    balOut (strL "(secret_key ILIKE '%a%' AND secret_value::text ILIKE '%'(%' OR secret_value @> '\x7b\"a\": \"'(\"\x7d')") false 0 = false := by
  exact ⟨rfl, by decide⟩

/-- C8: a negated node renders as the string `NOT ` concatenated with the
rendering of its operand, with no parentheses added by the NOT itself; in
particular `-term` compiles to `NOT (secret_key ILIKE '%term%' OR
secret_value::text ILIKE '%term%')`, the parentheses coming from the term
rendering. -/
theorem C8_not_is_bare_concat (p : Pair)
    (h1 : p.rule ≠ .WHITESPACE) (h2 : p.rule ≠ .NOT_OP) :
    parse_expression (notNode p) =
      Except.map (fun s => strL "NOT " ++ s) (parse_expression p) ∧
    query_to_sql (strL "-term") =
      .ok (strL "NOT (secret_key ILIKE '%term%' OR secret_value::text ILIKE '%term%')") := by
  refine ⟨?_, by rfl⟩
  have hws : is_ws p = false := by
    simp [is_ws, h1]
  have hop : (p.rule == Rule.NOT_OP) = false := by
    simp [h2]
  show peNot false (.cons (.mk .NOT_OP [] .nil) (.cons p .nil)) = _
  rw [show peNot false (.cons (.mk .NOT_OP [] .nil) (.cons p .nil)) =
        peNot true (.cons p .nil) from rfl]
  rw [peNot, hws, hop]
  cases hp : parse_expression p <;> simp [Except.map]

theorem C8_not_is_bare_concat_witness :
    parse_expression (notNode (.mk .term (strL "x") .nil)) =
      Except.map (fun s => strL "NOT " ++ s)
        (parse_expression (.mk .term (strL "x") .nil)) ∧
    query_to_sql (strL "-term") =
      .ok (strL "NOT (secret_key ILIKE '%term%' OR secret_value::text ILIKE '%term%')") :=
  C8_not_is_bare_concat (.mk .term (strL "x") .nil) (by decide) (by decide)

/-! ### Trim idempotence, for C10 -/

theorem dropWhile_idem (p : Char → Bool) (l : List Char) :
    (l.dropWhile p).dropWhile p = l.dropWhile p := by
  induction l with
  | nil => rfl
  | cons a l ih => by_cases h : p a <;> simp [List.dropWhile_cons, h, ih]

theorem length_dw_le (p : Char → Bool) (l : List Char) :
    (l.dropWhile p).length ≤ l.length := by
  induction l with
  | nil => simp
  | cons a l ih =>
    by_cases h : p a
    · simp only [List.dropWhile_cons, h, if_true, List.length_cons]
      omega
    · simp [List.dropWhile_cons, h]

theorem dw_eq_self_of_head (p : Char → Bool) (x y : List Char)
    (h : (x ++ y).dropWhile p = x ++ y) : x.dropWhile p = x := by
  cases x with
  | nil => rfl
  | cons a xs =>
    by_cases hp : p a
    · exfalso
      have h2 : List.dropWhile p (xs ++ y) = a :: (xs ++ y) := by
        simpa [List.cons_append, List.dropWhile_cons, hp] using h
      have hle := length_dw_le p (xs ++ y)
      have hlen := congrArg List.length h2
      simp only [List.length_cons] at hlen
      omega
    · simp [List.dropWhile_cons, hp]

theorem rtrimD_pfx (l : List Char) : ∃ m, l = rtrimD l ++ m := by
  refine ⟨(l.reverse.takeWhile wsChar).reverse, ?_⟩
  conv_lhs => rw [← l.reverse_reverse,
    ← List.takeWhile_append_dropWhile (p := wsChar) (l := l.reverse)]
  rw [List.reverse_append]
  rfl

theorem ltrimD_rtrimD (l : List Char) (h : ltrimD l = l) :
    ltrimD (rtrimD l) = rtrimD l := by
  obtain ⟨m, hm⟩ := rtrimD_pfx l
  exact dw_eq_self_of_head wsChar (rtrimD l) m (by rw [← hm]; exact h)

theorem rtrimD_idem (l : List Char) : rtrimD (rtrimD l) = rtrimD l := by
  unfold rtrimD
  rw [List.reverse_reverse, dropWhile_idem]

theorem trimL_idem (s : List Char) : trimL (trimL s) = trimL s := by
  unfold trimL
  rw [ltrimD_rtrimD (ltrimD s) (dropWhile_idem wsChar s), rtrimD_idem]

/-- C10: trimming never changes the result of `query_to_sql` — leading and
trailing whitespace is stripped before the empty check and before parsing, so
`query_to_sql s = query_to_sql (trim s)` for every input, success or
failure. -/
theorem C10_trim_invariant (s : List Char) :
    query_to_sql s = query_to_sql (trimL s) := by
  unfold query_to_sql
  rw [trimL_idem]

/-! ### Renderability of parser output, for C4 -/

theorem peParts_ok (sep : List Char) (qs : List Pair)
    (h : ∀ r ∈ qs, is_sep r = true ∨ rOk r) :
    ∃ out, peParts sep (toPairs qs) = .ok out := by
  induction qs with
  | nil => exact ⟨[], rfl⟩
  | cons r rs ih =>
    obtain ⟨out, hout⟩ := ih (fun q hq => h q (List.mem_cons_of_mem _ hq))
    cases hsep : is_sep r with
    | true => exact ⟨out, by simp [toPairs, peParts, hsep, hout]⟩
    | false =>
      rcases h r (List.mem_cons_self r rs) with h' | ⟨o, ho⟩
      · rw [h'] at hsep; cases hsep
      · exact ⟨sep ++ (o ++ out), by simp [toPairs, peParts, hsep, ho, hout]⟩

theorem peListBody_ok (sep : List Char) (q : Pair) (qs : List Pair)
    (h1 : is_ws q = false) (h2 : rOk q)
    (h3 : ∀ r ∈ qs, is_sep r = true ∨ rOk r) :
    ∃ out, peListBody sep (toPairs (q :: qs)) = .ok out := by
  obtain ⟨o, ho⟩ := h2
  obtain ⟨out, hout⟩ := peParts_ok sep qs h3
  exact ⟨o ++ out, by simp [toPairs, peListBody, h1, ho, hout]⟩

theorem accInv_or (acc : List Pair) (h : AccInv acc) :
    rOk (.mk .or_expr [] (toPairs acc.reverse)) := by
  unfold AccInv at h
  cases hrev : acc.reverse with
  | nil => rw [hrev] at h; exact h.elim
  | cons q qs =>
    rw [hrev] at h
    obtain ⟨h1, h2, h3⟩ := h
    obtain ⟨out, hout⟩ := peListBody_ok (strL " OR ") q qs h1 h2 h3
    exact ⟨out, hout⟩

theorem accInv_and (acc : List Pair) (h : AccInv acc) :
    rOk (.mk .and_expr [] (toPairs acc.reverse)) := by
  unfold AccInv at h
  cases hrev : acc.reverse with
  | nil => rw [hrev] at h; exact h.elim
  | cons q qs =>
    rw [hrev] at h
    obtain ⟨h1, h2, h3⟩ := h
    obtain ⟨out, hout⟩ := peListBody_ok (strL " AND ") q qs h1 h2 h3
    exact ⟨out, hout⟩

theorem accInv_single (q : Pair) (h1 : is_ws q = false) (h2 : rOk q) :
    AccInv [q] := by
  unfold AccInv
  simp only [List.reverse_singleton]
  exact ⟨h1, h2, by simp⟩

theorem accInv_extend2 (acc : List Pair) (sepP q : Pair)
    (hsep : is_sep sepP = true) (hws : is_ws q = false) (hq : rOk q)
    (h : AccInv acc) : AccInv (q :: sepP :: acc) := by
  unfold AccInv at h ⊢
  cases hrev : acc.reverse with
  | nil => rw [hrev] at h; exact h.elim
  | cons q0 qs =>
    rw [hrev] at h
    obtain ⟨h1, h2, h3⟩ := h
    have hr : (q :: sepP :: acc).reverse = q0 :: (qs ++ [sepP, q]) := by
      simp [hrev]
    rw [hr]
    refine ⟨h1, h2, fun r hrm => ?_⟩
    rcases List.mem_append.mp hrm with hm | hm
    · exact h3 r hm
    · have hm2 : r = sepP ∨ r = q := by simpa using hm
      rcases hm2 with rfl | rfl
      · exact Or.inl hsep
      · exact Or.inr hq

theorem accInv_extend1 (acc : List Pair) (q : Pair)
    (hws : is_ws q = false) (hq : rOk q)
    (h : AccInv acc) : AccInv (q :: acc) := by
  unfold AccInv at h ⊢
  cases hrev : acc.reverse with
  | nil => rw [hrev] at h; exact h.elim
  | cons q0 qs =>
    rw [hrev] at h
    obtain ⟨h1, h2, h3⟩ := h
    have hr : (q :: acc).reverse = q0 :: (qs ++ [q]) := by
      simp [hrev]
    rw [hr]
    refine ⟨h1, h2, fun r hrm => ?_⟩
    rcases List.mem_append.mp hrm with hm | hm
    · exact h3 r hm
    · have hm2 : r = q := by simpa using hm
      subst hm2
      exact Or.inr hq

theorem rkv_ok (ktok vtok : Pair)
    (hk : ktok.rule = .quoted_string ∨ ktok.rule = .ident)
    (hv : vtok.rule = .quoted_string ∨ vtok.rule = .ident) :
    ∃ out, render_key_value (mkKeyValue ktok vtok) = .ok out := by
  cases ktok with
  | mk kr kt kc =>
    cases vtok with
    | mk vr vt vc =>
      simp only [Pair.rule] at hk hv
      rcases hk with rfl | rfl <;> rcases hv with rfl | rfl <;> exact ⟨_, rfl⟩

theorem parseTok_shape (s : List Char) (tok : Pair) (rest : List Char)
    (h : parseTok s = .ok (tok, rest)) :
    tok.rule = .quoted_string ∨ tok.rule = .ident := by
  unfold parseTok at h
  split at h
  · split at h
    · cases h
    · cases h
      exact Or.inl rfl
  · split at h
    · cases h
      exact Or.inr rfl
    · cases h

/-- Joint induction over the parsing fuel: every tree produced by the
modelled parser has the advertised root rule and renders without internal
errors. -/
theorem parser_rOk (fuel : Nat) :
    (∀ s p rest, parsePrimaryE fuel s = .ok (p, rest) → p.rule = .primary ∧ rOk p) ∧
    (∀ s p rest, parseNotE fuel s = .ok (p, rest) → p.rule = .not_expr ∧ rOk p) ∧
    (∀ s p rest, parseAndE fuel s = .ok (p, rest) → p.rule = .and_expr ∧ rOk p) ∧
    (∀ acc s p rest, AccInv acc → parseAndLoop fuel acc s = .ok (p, rest) →
      p.rule = .and_expr ∧ rOk p) ∧
    (∀ s p rest, parseOrE fuel s = .ok (p, rest) → p.rule = .or_expr ∧ rOk p) ∧
    (∀ acc s p rest, AccInv acc → parseOrLoop fuel acc s = .ok (p, rest) →
      p.rule = .or_expr ∧ rOk p) := by
  induction fuel with
  | zero =>
    refine ⟨?_, ?_, ?_, ?_, ?_, ?_⟩
    · intro s p rest h; rw [parsePrimaryE] at h; exact Except.noConfusion h
    · intro s p rest h; rw [parseNotE] at h; exact Except.noConfusion h
    · intro s p rest h; rw [parseAndE] at h; exact Except.noConfusion h
    · intro acc s p rest _ h; rw [parseAndLoop] at h; exact Except.noConfusion h
    · intro s p rest h; rw [parseOrE] at h; exact Except.noConfusion h
    · intro acc s p rest _ h; rw [parseOrLoop] at h; exact Except.noConfusion h
  | succ fuel ih =>
    obtain ⟨ihP, ihN, ihA, ihAL, ihO, ihOL⟩ := ih
    refine ⟨?_, ?_, ?_, ?_, ?_, ?_⟩
    · -- parsePrimaryE
      intro s p rest h
      rw [parsePrimaryE] at h
      split at h
      · -- grouped
        split at h
        · exact Except.noConfusion h
        · rename_i o s2 heq
          obtain ⟨horule, hoOk⟩ := ihO _ _ _ heq
          split at h
          · cases h
            refine ⟨rfl, ?_⟩
            obtain ⟨oo, hoo⟩ := hoOk
            have hws : is_ws o = false := by simp [is_ws, horule]
            refine ⟨'(' :: (oo ++ [')']), ?_⟩
            show peGroupBody (.cons o .nil) = _
            rw [peGroupBody, hws]
            simp [hoo]
          · exact Except.noConfusion h
      · -- token
        split at h
        · exact Except.noConfusion h
        · rename_i tok s1 heq
          split at h
          · -- key_value
            split at h
            · exact Except.noConfusion h
            · rename_i vtok s3 heq2
              cases h
              obtain ⟨out, hout⟩ :=
                rkv_ok tok vtok (parseTok_shape _ _ _ heq) (parseTok_shape _ _ _ heq2)
              exact ⟨rfl, out, hout⟩
          · split at h
            · -- phrase
              cases h
              exact ⟨rfl, _, rfl⟩
            · split at h
              · exact Except.noConfusion h
              · -- term
                cases h
                exact ⟨rfl, _, rfl⟩
    · -- parseNotE
      intro s p rest h
      rw [parseNotE] at h
      split at h
      · -- NOT keyword
        split at h
        · exact Except.noConfusion h
        · rename_i p1 s1 heq
          cases h
          obtain ⟨hrule, o, ho⟩ := ihP _ _ _ heq
          refine ⟨rfl, strL "NOT " ++ o, ?_⟩
          show peNot true (.cons p1 .nil) = _
          have hws : is_ws p1 = false := by simp [is_ws, hrule]
          have hop : (p1.rule == Rule.NOT_OP) = false := by simp [hrule]
          rw [peNot, hws, hop]
          simp [ho]
      · split at h
        · -- leading '-'
          split at h
          · exact Except.noConfusion h
          · rename_i p1 s1 heq
            cases h
            obtain ⟨hrule, o, ho⟩ := ihP _ _ _ heq
            refine ⟨rfl, strL "NOT " ++ o, ?_⟩
            show peNot true (.cons p1 .nil) = _
            have hws : is_ws p1 = false := by simp [is_ws, hrule]
            have hop : (p1.rule == Rule.NOT_OP) = false := by simp [hrule]
            rw [peNot, hws, hop]
            simp [ho]
        · -- bare primary
          split at h
          · exact Except.noConfusion h
          · rename_i p1 s1 heq
            cases h
            obtain ⟨hrule, o, ho⟩ := ihP _ _ _ heq
            refine ⟨rfl, o, ?_⟩
            show peNot false (.cons p1 .nil) = _
            have hws : is_ws p1 = false := by simp [is_ws, hrule]
            have hop : (p1.rule == Rule.NOT_OP) = false := by simp [hrule]
            rw [peNot, hws, hop]
            simp [ho]
    · -- parseAndE
      intro s p rest h
      rw [parseAndE] at h
      split at h
      · exact Except.noConfusion h
      · rename_i n1 s1 heq
        obtain ⟨hrule, hOk⟩ := ihN _ _ _ heq
        exact ihAL _ _ _ _ (accInv_single n1 (by simp [is_ws, hrule]) hOk) h
    · -- parseAndLoop
      intro acc s p rest hacc h
      rw [parseAndLoop] at h
      split at h
      · -- explicit AND
        split at h
        · exact Except.noConfusion h
        · rename_i n2 s2 heq
          obtain ⟨hrule, hOk⟩ := ihN _ _ _ heq
          exact ihAL _ _ _ _
            (accInv_extend2 acc andOpPair n2 rfl (by simp [is_ws, hrule]) hOk hacc) h
      · split at h
        · -- stop before OR
          cases h
          exact ⟨rfl, accInv_and acc hacc⟩
        · split at h
          · -- implicit AND
            split at h
            · exact Except.noConfusion h
            · rename_i n2 s2 heq
              obtain ⟨hrule, hOk⟩ := ihN _ _ _ heq
              exact ihAL _ _ _ _
                (accInv_extend1 acc n2 (by simp [is_ws, hrule]) hOk hacc) h
          · -- stop
            cases h
            exact ⟨rfl, accInv_and acc hacc⟩
    · -- parseOrE
      intro s p rest h
      rw [parseOrE] at h
      split at h
      · exact Except.noConfusion h
      · rename_i a1 s1 heq
        obtain ⟨hrule, hOk⟩ := ihA _ _ _ heq
        exact ihOL _ _ _ _ (accInv_single a1 (by simp [is_ws, hrule]) hOk) h
    · -- parseOrLoop
      intro acc s p rest hacc h
      rw [parseOrLoop] at h
      split at h
      · -- explicit OR
        split at h
        · exact Except.noConfusion h
        · rename_i a2 s2 heq
          obtain ⟨hrule, hOk⟩ := ihA _ _ _ heq
          exact ihOL _ _ _ _
            (accInv_extend2 acc orOpPair a2 rfl (by simp [is_ws, hrule]) hOk hacc) h
      · -- stop
        cases h
        exact ⟨rfl, accInv_or acc hacc⟩

/-- Every successful `parseQuery` result renders without internal errors. -/
theorem parseQuery_rOk (s : List Char) (t : Pair)
    (h : parseQuery s = .ok t) : rOk t := by
  unfold parseQuery at h
  split at h
  · exact Except.noConfusion h
  · rename_i o rest heq
    obtain ⟨horule, oo, hoo⟩ := (parser_rOk _).2.2.2.2.1 _ _ _ heq
    split at h
    · cases h
      refine ⟨oo, ?_⟩
      show peExprBody (.cons o (.cons (.mk .EOI [] .nil) .nil)) = _
      have hws : is_ws o = false := by simp [is_ws, horule]
      rw [peExprBody, hws]
      simp [hoo]
    · exact Except.noConfusion h

/-- C4: whenever the grammar parse of the trimmed input succeeds,
`query_to_sql` returns `Ok` — no `InternalError` branch of the renderer is
ever reached on a tree coming from a successful parse. -/
theorem C4_parse_success_gives_ok (raw : List Char) (t : Pair)
    (h : parseQuery (trimL raw) = .ok t) :
    ∃ out, query_to_sql raw = .ok out := by
  by_cases he : trimL raw = []
  · exact ⟨strL "TRUE", by simp [query_to_sql, he]⟩
  · obtain ⟨out, hout⟩ := parseQuery_rOk _ _ h
    refine ⟨out, ?_⟩
    simp only [query_to_sql, he, if_false, parsedPath, h]
    exact hout

theorem C4_parse_success_gives_ok_witness :
    ∃ out, query_to_sql (strL "a") = .ok out :=
  C4_parse_success_gives_ok (strL "a") treeOfA (by rfl)

end KeyVault

